import Mathlib

/-!
Verification of the e6dl-rs pipeline: a shallow embedding of the data model
(`src/api.rs`), the grouping classifier, the page collector and the download
scheduler (`src/main.rs`), together with theorems settling the specification
claims about them.

Modelling conventions:
* Rust `u32`/`usize` become `Nat`; the one `u32` addition that can wrap for
  reachable CLI inputs — the loop bound `starting_page + args.pages` of
  `collect_posts` (src/main.rs line 155, release-build wrapping) — is
  modelled explicitly with `% 2^32` in `pageRange`; `i32` becomes `Int`;
  `f32` becomes `Float` (never computed with).
* Filesystem paths are lists of path segments (`PathBuf::push` is `++ [seg]`).
* The remote service and the filesystem are oracles (`Net`, `FsO`) supplied as
  explicit records of functions returning `Except String`; the byte payload of
  a response stream is a list of chunks, each chunk itself a fallible
  `Except String (List Nat)` exactly like `reqwest`'s `bytes_stream` items.
* A Rust `panic!`/`unwrap` failure is modelled as `Option.none` at the point
  where the Rust code would panic.
* Side effects are recorded as an explicit event trace (`Ev`).
-/

namespace E6dl

/-- Model of `api::PostFile` (src/api.rs). -/
structure PostFile where
  width : Nat
  height : Nat
  ext : String
  size : Nat
  md5 : String
  url : Option String

/-- Model of `api::PostPreview` (src/api.rs). -/
structure PostPreview where
  width : Nat
  height : Nat
  url : Option String

/-- Model of `api::PostSample` (src/api.rs). -/
structure PostSample where
  has : Bool
  width : Nat
  height : Nat
  url : Option String

/-- Model of `api::PostScore` (src/api.rs). -/
structure PostScore where
  up : Nat
  down : Int
  total : Int

/-- Model of `api::PostTags` (src/api.rs). -/
structure PostTags where
  general : List String
  species : List String
  character : List String
  copyright : List String
  artist : List String
  invalid : List String
  lore : List String
  meta : List String

/-- Model of `api::PostTags::contains` (src/api.rs): the tag is present in any
of the eight categories. -/
def PostTags.contains (t : PostTags) (tag : String) : Bool :=
  t.general.contains tag ||
  t.species.contains tag ||
  t.character.contains tag ||
  t.copyright.contains tag ||
  t.artist.contains tag ||
  t.invalid.contains tag ||
  t.lore.contains tag ||
  t.meta.contains tag

/-- Model of `api::PostFlags` (src/api.rs). -/
structure PostFlags where
  pending : Bool
  flagged : Bool
  note_locked : Bool
  status_locked : Bool
  rating_locked : Bool
  deleted : Bool

/-- Model of `api::PostRelationships` (src/api.rs). -/
structure PostRelationships where
  parent_id : Option Nat
  has_children : Bool
  has_active_children : Bool
  children : List Nat

/-- Model of `api::PostRating` (src/api.rs). -/
inductive PostRating where
  | Safe
  | Questionable
  | Explicit
deriving DecidableEq

/-- Model of `impl ToString for PostRating` (src/api.rs). -/
def PostRating.toString : PostRating → String
  | .Safe => "safe"
  | .Questionable => "questionable"
  | .Explicit => "explicit"

/-- Model of `api::Post` (src/api.rs), with every field of the Rust struct. -/
structure Post where
  id : Nat
  description : String
  created_at : String
  updated_at : String
  tags : PostTags
  file : PostFile
  preview : PostPreview
  sample : PostSample
  score : PostScore
  locked_tags : List String
  change_seq : Nat
  flags : PostFlags
  rating : PostRating
  fav_count : Nat
  sources : List String
  pools : List Nat
  relationships : PostRelationships
  approver_id : Option Nat
  uploader_id : Nat
  comment_count : Nat
  is_favorited : Bool
  has_notes : Bool
  duration : Option Float

/-- Model of `PostGrouping` (src/main.rs). -/
inductive PostGrouping where
  | Pool
  | Rating
  | Artist
  | FileType
  | Tag (tag : String)
deriving DecidableEq

/-- Model of `PostGrouping::matches_post` (src/main.rs lines 25-32). -/
def PostGrouping.matches_post (g : PostGrouping) (post : Post) : Bool :=
  match g with
  | .Pool => !post.pools.isEmpty
  | .Rating | .FileType => true
  | .Artist => !post.tags.artist.isEmpty
  | .Tag tag => post.tags.contains tag

/-- Model of `PostGrouping::post_group` (src/main.rs lines 34-42). The Rust
code calls `.first().unwrap()` on the pool list (resp. artist list); the
`unwrap` panic is modelled as `none`. -/
def PostGrouping.post_group? (g : PostGrouping) (post : Post) : Option String :=
  match g with
  | .Pool => post.pools.head?.map (fun p => "pool_" ++ toString p)
  | .Rating => some post.rating.toString
  | .FileType => some post.file.ext
  | .Artist => post.tags.artist.head?
  | .Tag tag => some tag

/-- The classifier extracted from the grouping loop in `download`
(src/main.rs lines 182-191): the first rule in list order whose
`matches_post` predicate holds supplies the subpath label; if no rule
matches (in particular if the rule list is empty) there is no subpath. -/
def classify (grouping : List PostGrouping) (post : Post) : Option String :=
  (grouping.find? (fun g => PostGrouping.matches_post g post)).bind
    (fun g => PostGrouping.post_group? g post)

/-- Observable side effects of the pipeline, recorded in program order.
`createDir` is `fs::create_dir_all`, `createFile` is `File::create` (which
truncates an existing file), `fetchGet` is `reqwest::get`, `writeChunk` is
`file.write_all` on one chunk of the response stream. Every event records an
attempt, whether or not the underlying operation succeeded. -/
inductive Ev where
  | createDir (path : List String)
  | createFile (path : List String)
  | fetchGet (url : String)
  | writeChunk (path : List String) (bytes : List Nat)
deriving DecidableEq

/-- Filesystem oracle: outcomes of the three filesystem primitives the code
uses. Failures carry the error message the `Display` impl would render. -/
structure FsO where
  createDirAll : List String → Except String Unit
  createFile : List String → Except String Unit
  writeAll : List String → List Nat → Except String Unit

/-- Network oracle: `reqwest::get` either fails or yields a byte stream,
modelled as the list of chunk results the stream will produce in order. -/
structure Net where
  get : String → Except String (List (Except String (List Nat)))

/-- Model of the `while let Some(bytes) = download_stream.next()` loop of
`api::download` (src/api.rs lines 170-175): each chunk is unwrapped with `?`
(a failed chunk aborts with its error) and then written with `write_all`
(a failed write aborts with its error). Returns the loop outcome and the
write events it performed. -/
def stream_write (fs : FsO) (dest : List String) :
    List (Except String (List Nat)) → Except String Unit × List Ev
  | [] => (.ok (), [])
  | c :: rest =>
    match c with
    | .error e => (.error e, [])
    | .ok bytes =>
      match fs.writeAll dest bytes with
      | .error e => (.error e, [.writeChunk dest bytes])
      | .ok _ =>
        let r := stream_write fs dest rest
        (r.1, .writeChunk dest bytes :: r.2)

/-- Model of `api::download` (src/api.rs lines 162-178): require a URL
(otherwise the specific `ApiError` below), create (truncate) the local file,
fetch the URL, then stream the chunks to the file. Returns the result and the
event trace in program order. -/
def api_download (fs : FsO) (net : Net) (post : Post) (dest : List String) :
    Except String Unit × List Ev :=
  match post.file.url with
  | none => (.error "post has no downloadable file (a tag might be blacklisted)", [])
  | some url =>
    match fs.createFile dest with
    | .error e => (.error e, [.createFile dest])
    | .ok _ =>
      match net.get url with
      | .error e => (.error e, [.createFile dest, .fetchGet url])
      | .ok chunks =>
        let r := stream_write fs dest chunks
        (r.1, .createFile dest :: .fetchGet url :: r.2)

/-- Per-item outcome of `download` (src/main.rs lines 179-202): the id of the
post, the directory-creation error reported for it (if any), the final file
path, the result of `api::download` reported for it, and the event trace. -/
structure ItemResult where
  postId : Nat
  dirError : Option String
  path : List String
  result : Except String Unit
  events : List Ev

/-- Model of `download` (src/main.rs lines 179-202). The grouping loop takes
the first rule matching the post (`continue` on a non-match, `break` after the
first match), pushes its label onto the path and attempts to create that
directory; a creation failure is only reported — the code then proceeds to
push `"{id}.{ext}"` and call `api::download` regardless. The `unwrap` inside
`post_group` is modelled as `none` (panic). -/
def download (fs : FsO) (net : Net) (post : Post) (dest : List String)
    (grouping : List PostGrouping) : Option ItemResult :=
  match grouping.find? (fun g => PostGrouping.matches_post g post) with
  | none =>
    let file_name := dest ++ [toString post.id ++ "." ++ post.file.ext]
    let r := api_download fs net post file_name
    some ⟨post.id, none, file_name, r.1, r.2⟩
  | some g =>
    match PostGrouping.post_group? g post with
    | none => none
    | some label =>
      let dir := dest ++ [label]
      let dirError : Option String :=
        match fs.createDirAll dir with
        | .ok _ => none
        | .error e => some e
      let file_name := dir ++ [toString post.id ++ "." ++ post.file.ext]
      let r := api_download fs net post file_name
      some ⟨post.id, dirError, file_name, r.1, .createDir dir :: r.2⟩

/-- Model of `for_each_concurrent` over the post list (src/main.rs lines
207-209): every item is attempted and the pool joins on all of them; the
claims proved here do not depend on interleaving, so attempts are recorded in
dispatch order. A `none` anywhere (an item worker panicking) collapses the
batch to `none`. -/
def forEachItem {α β : Type} (f : α → Option β) : List α → Option (List β)
  | [] => some []
  | a :: t =>
    match f a with
    | none => none
    | some b => (forEachItem f t).map (fun bs => b :: bs)

/-- Model of `download_all` (src/main.rs lines 204-214): create the output
root (propagating a failure with `?`), then run every per-item download.
Returns the batch result, the per-item outcomes and the full event trace. -/
def download_all (fs : FsO) (net : Net) (posts : List Post) (dest : List String)
    (grouping : List PostGrouping) :
    Option (Except String Unit × List ItemResult × List Ev) :=
  match fs.createDirAll dest with
  | .error e => some (.error e, [], [.createDir dest])
  | .ok _ =>
    (forEachItem (fun post => download fs net post dest grouping) posts).map
      (fun rs => (.ok (), rs, .createDir dest :: rs.flatMap (fun r => r.events)))

/-- Model of the phase of `main` after collection (src/main.rs lines
128-142): on a successful collection with no posts, warn and return `Ok`
without invoking `download_all`; on a non-empty collection invoke
`download_all` and propagate its error with `?`; on a failed collection log
and return `Ok`. -/
def main_after_collect (fs : FsO) (net : Net) (out : List String)
    (grouping : List PostGrouping) (results : Except String (List Post)) :
    Option (Except String Unit × List ItemResult × List Ev) :=
  match results with
  | .ok posts =>
    if posts.isEmpty then some (.ok (), [], [])
    else download_all fs net posts out grouping
  | .error _ => some (.ok (), [], [])

/-- Model of Rust's `str::parse::<u32>()` as used on the `page` argument:
accepts a non-empty all-digit string and returns its decimal value. (Rust also
accepts a leading `+`, and rejects values over `u32::MAX`; neither matters for
the page numbers considered here.) Implemented over the character list so that
it evaluates by kernel reduction. -/
def parse_u32 (s : String) : Option Nat :=
  if s.toList.isEmpty then none
  else if s.toList.all Char.isDigit then
    some (s.toList.foldl (fun n c => n * 10 + (c.toNat - 48)) 0)
  else none

/-- Outcome of the multi-page collection loop of `collect_posts`
(src/main.rs lines 159-174): the accumulated posts, the pages actually
queried in order, and the per-page failures reported via `error!`. -/
structure LoopOut where
  posts : List Post
  queried : List Nat
  reported : List (Nat × String)

/-- Model of the `for page_num in starting_page..ending_page` loop of
`collect_posts` (src/main.rs lines 159-174) over an explicit list of page
numbers: a successful empty page breaks out of the loop, a successful
non-empty page is appended to the accumulator, a failed page is reported and
skipped. -/
def collect_loop (searchN : Nat → Except String (List Post)) :
    List Nat → LoopOut
  | [] => ⟨[], [], []⟩
  | p :: rest =>
    match searchN p with
    | .ok posts =>
      if posts.isEmpty then ⟨[], [p], []⟩
      else
        let r := collect_loop searchN rest
        ⟨posts ++ r.posts, p :: r.queried, r.reported⟩
    | .error e =>
      let r := collect_loop searchN rest
      ⟨r.posts, p :: r.queried, (p, e) :: r.reported⟩

/-- Outcome of `collect_posts`: the value returned to `main`, the page tokens
queried (as the strings handed to `api::search`), and the reported per-page
failures. -/
structure CollectOut where
  result : Except String (List Post)
  queried : List String
  reported : List (Nat × String)

/-- The search oracle restricted to one run's fixed `tags`/`limit`/`sfw` and
applied to a numeric page, exactly as the multi-page loop calls
`api::search(&args.tags, args.limit, &page_num.to_string(), args.sfw)`. -/
def searchByPage (search : String → Nat → String → Bool → Except String (List Post))
    (tags : String) (limit : Nat) (sfw : Bool) : Nat → Except String (List Post) :=
  fun n => search tags limit (toString n) sfw

/-- The page numbers the multi-page loop iterates over. The source computes
`let ending_page = starting_page + args.pages;` (src/main.rs line 155) in
`u32`, which wraps modulo `2^32` in a release build, and then iterates
`starting_page..ending_page`, which is empty whenever
`ending_page ≤ starting_page`. Both the wrap and the possibly-empty range are
modelled: the loop visits `ending_page - starting_page` pages (truncated
subtraction) from `starting_page`, with `ending_page` the wrapped sum. -/
def pageRange (starting_page pages : Nat) : List Nat :=
  List.range' starting_page ((starting_page + pages) % 2 ^ 32 - starting_page)

/-- Model of `collect_posts` (src/main.rs lines 145-177). `search` is the
oracle for `api::search(tags, limit, page, sfw)`. With `pages == 1` the single
query's result is returned verbatim (page may be a non-numeric cursor).
Otherwise the starting page is parsed (`expect` panic modelled as `none`) and
the loop runs over `starting_page..ending_page` with the wrapping `u32` end
computed by `pageRange`, always returning `Ok` of the accumulator. -/
def collect_posts (search : String → Nat → String → Bool → Except String (List Post))
    (tags : String) (limit : Nat) (page : String) (pages : Nat) (sfw : Bool) :
    Option CollectOut :=
  if pages = 1 then
    some ⟨search tags limit page sfw, [page], []⟩
  else
    match parse_u32 page with
    | none => none
    | some starting_page =>
      let r := collect_loop (searchByPage search tags limit sfw)
        (pageRange starting_page pages)
      some ⟨.ok r.posts, r.queried.map toString, r.reported⟩

/-- Predicate for a page at which the loop stops: the query succeeds with an
empty post list. -/
def isEnd (searchN : Nat → Except String (List Post)) (p : Nat) : Bool :=
  match searchN p with
  | .ok posts => posts.isEmpty
  | .error _ => false

/-- Items a page contributes to the accumulator: its posts on success,
nothing on failure. -/
def okItems (searchN : Nat → Except String (List Post)) (p : Nat) : List Post :=
  match searchN p with
  | .ok posts => posts
  | .error _ => []

/-- The failure report a page produces, if any. -/
def errOf (searchN : Nat → Except String (List Post)) (p : Nat) :
    Option (Nat × String) :=
  match searchN p with
  | .ok _ => none
  | .error e => some (p, e)

/-! ## Concrete inputs used to evaluate the definitions -/

/-- Tag set of the running example post: one artist tag, nothing else. -/
def exTags : PostTags :=
  ⟨[], [], [], [], ["alice"], [], [], []⟩

/-- File record of the running example post. -/
def exFile : PostFile :=
  ⟨800, 600, "png", 1234, "d41d8cd9", some "https://static1.e621.net/a.png"⟩

/-- A post in pool 42 with rating safe and a downloadable URL. -/
def exPost : Post where
  id := 100
  description := ""
  created_at := ""
  updated_at := ""
  tags := exTags
  file := exFile
  preview := ⟨80, 60, none⟩
  sample := ⟨false, 0, 0, none⟩
  score := ⟨1, 0, 1⟩
  locked_tags := []
  change_seq := 0
  flags := ⟨false, false, false, false, false, false⟩
  rating := .Safe
  fav_count := 0
  sources := []
  pools := [42]
  relationships := ⟨none, false, false, []⟩
  approver_id := none
  uploader_id := 1
  comment_count := 0
  is_favorited := false
  has_notes := false
  duration := none

/-- The example post with its remote URL absent (restricted asset). -/
def exPostNoUrl : Post :=
  { exPost with id := 101, file := { exFile with url := none } }

/-- The example post with no pool and no artist tag (matches neither the
pool rule nor the artist rule). -/
def exPostPlain : Post :=
  { exPost with id := 102, pools := [], tags := { exTags with artist := [] } }

/-- A filesystem in which every operation succeeds. -/
def exFsOk : FsO :=
  ⟨fun _ => .ok (), fun _ => .ok (), fun _ _ => .ok ()⟩

/-- A filesystem in which only the root output directory can be created;
creating any subdirectory fails. -/
def exFsDirFail : FsO :=
  ⟨fun p => if p = ["out"] then .ok () else .error "permission denied",
   fun _ => .ok (), fun _ _ => .ok ()⟩

/-- A network that answers every fetch with one three-byte chunk. -/
def exNet : Net :=
  ⟨fun _ => .ok [.ok [1, 2, 3]]⟩

/-- A network on which every fetch fails. -/
def exNetFail : Net :=
  ⟨fun _ => .error "connection reset"⟩

/-- A search service: page "2" is empty, every other page has one post. -/
def exSearch : String → Nat → String → Bool → Except String (List Post) :=
  fun _ _ page _ => if page = "2" then .ok [] else .ok [exPost]

/-- A search service: page "1" fails, every other page has one post. -/
def exSearchFail : String → Nat → String → Bool → Except String (List Post) :=
  fun _ _ page _ => if page = "1" then .error "boom" else .ok [exPost]

/-- A search service on which every query fails. -/
def exSearchAllFail : String → Nat → String → Bool → Except String (List Post) :=
  fun _ _ _ _ => .error "service unavailable"

/-! ## Helper lemmas -/

lemma isEnd_iff (searchN : Nat → Except String (List Post)) (p : Nat) :
    isEnd searchN p = true ↔ searchN p = .ok [] := by
  unfold isEnd
  cases h : searchN p with
  | ok posts => simp [List.isEmpty_iff]
  | error e => simp

/-- Full characterization of the multi-page loop: it processes the longest
prefix of non-stopping pages, then queries (at most) one stopping page. -/
lemma collect_loop_eq (searchN : Nat → Except String (List Post)) (l : List Nat) :
    collect_loop searchN l =
      ⟨(l.takeWhile fun p => !isEnd searchN p).flatMap (okItems searchN),
       (l.takeWhile fun p => !isEnd searchN p) ++
         (l.dropWhile fun p => !isEnd searchN p).take 1,
       (l.takeWhile fun p => !isEnd searchN p).filterMap (errOf searchN)⟩ := by
  induction l with
  | nil => rfl
  | cons p rest ih =>
    cases h : searchN p with
    | error e =>
      have hE : (!isEnd searchN p) = true := by simp [isEnd, h]
      simp only [collect_loop, h, List.takeWhile_cons, List.dropWhile_cons, hE,
        if_true, ih, List.flatMap_cons, List.filterMap_cons]
      have h1 : okItems searchN p = [] := by simp [okItems, h]
      have h2 : errOf searchN p = some (p, e) := by simp [errOf, h]
      simp [h1, h2]
    | ok posts =>
      by_cases hp : posts.isEmpty
      · have hE : (!isEnd searchN p) = false := by simp [isEnd, h, hp]
        simp only [collect_loop, h, hp, if_true, List.takeWhile_cons,
          List.dropWhile_cons, hE, Bool.false_eq_true, if_false]
        simp [List.take]
      · have hE : (!isEnd searchN p) = true := by simp [isEnd, h, hp]
        simp only [collect_loop, h, hp, if_false, List.takeWhile_cons,
          List.dropWhile_cons, hE, if_true, ih, List.flatMap_cons,
          List.filterMap_cons]
        have h1 : okItems searchN p = posts := by simp [okItems, h]
        have h2 : errOf searchN p = none := by simp [errOf, h]
        simp [h1, h2, hp]

lemma range'_append_one (s m n : Nat) :
    List.range' s m ++ List.range' (s + m) n = List.range' s (m + n) := by
  have h := List.range'_append s m n 1
  rw [Nat.one_mul] at h
  rw [Nat.add_comm m n]
  exact h

/-- The prefix of a page interval kept by `takeWhile` is itself an interval,
all of whose pages satisfy the predicate, and whose successor (when the
interval was cut short) fails it. -/
lemma takeWhile_range'_spec (P : Nat → Bool) (s n : Nat) :
    ∃ m, m ≤ n ∧ (List.range' s n).takeWhile P = List.range' s m ∧
      (∀ x, s ≤ x → x < s + m → P x = true) ∧
      (m < n → P (s + m) = false) := by
  induction n generalizing s with
  | zero =>
    refine ⟨0, le_refl 0, by simp, ?_, ?_⟩
    · intro x h1 h2; omega
    · intro h; omega
  | succ n ih =>
    rw [show List.range' s (n + 1) = s :: List.range' (s + 1) n from
      List.range'_succ s n 1]
    by_cases hs : P s
    · obtain ⟨m, hm, ht, hall, hend⟩ := ih (s + 1)
      refine ⟨m + 1, by omega, ?_, ?_, ?_⟩
      · rw [List.takeWhile_cons, if_pos hs, ht,
          show List.range' s (m + 1) = s :: List.range' (s + 1) m from
            List.range'_succ s m 1]
      · intro x h1 h2
        rcases Nat.eq_or_lt_of_le h1 with rfl | hlt
        · exact hs
        · exact hall x (by omega) (by omega)
      · intro h
        have h2 := hend (by omega)
        rw [show s + (m + 1) = s + 1 + m by omega]
        exact h2
    · refine ⟨0, Nat.zero_le _, ?_, ?_, ?_⟩
      · rw [List.takeWhile_cons, if_neg hs]; simp
      · intro x h1 h2; omega
      · intro _
        rw [Nat.add_zero]
        exact Bool.not_eq_true _ ▸ eq_false_of_ne_true hs

lemma dropWhile_range'_of_takeWhile (P : Nat → Bool) (s n m : Nat)
    (hm : m ≤ n) (ht : (List.range' s n).takeWhile P = List.range' s m) :
    (List.range' s n).dropWhile P = List.range' (s + m) (n - m) := by
  have h1 := List.takeWhile_append_dropWhile P (List.range' s n)
  rw [ht] at h1
  have h2 : List.range' s m ++ List.range' (s + m) (n - m) = List.range' s n := by
    rw [range'_append_one]
    congr 1
    omega
  exact List.append_cancel_left (h1.trans h2.symm)

lemma mem_take_one_dropWhile {α : Type} (P : α → Bool) (l : List α) (x : α)
    (hx : x ∈ (l.dropWhile P).take 1) : P x = false := by
  induction l with
  | nil => simp at hx
  | cons a t ih =>
    rw [List.dropWhile_cons] at hx
    by_cases h : P a
    · rw [if_pos h] at hx
      exact ih hx
    · rw [if_neg h] at hx
      simp [List.take] at hx
      subst hx
      exact eq_false_of_ne_true h

lemma flatMap_mem_decomp {α β : Type} (f : α → List β) (l : List α) (x : α)
    (hx : x ∈ l) : ∃ A B, l.flatMap f = A ++ f x ++ B := by
  obtain ⟨s, t, rfl⟩ := List.append_of_mem hx
  exact ⟨s.flatMap f, t.flatMap f,
    by simp [List.flatMap_append, List.flatMap_cons, List.append_assoc]⟩

/-- Unfolding of `collect_posts` on the multi-page path. -/
lemma collect_posts_multi
    (search : String → Nat → String → Bool → Except String (List Post))
    (tags : String) (limit : Nat) (page : String) (pages : Nat) (sfw : Bool)
    (start : Nat) (hpages : pages ≠ 1) (hparse : parse_u32 page = some start) :
    collect_posts search tags limit page pages sfw =
      some ⟨.ok (collect_loop (searchByPage search tags limit sfw)
              (pageRange start pages)).posts,
            ((collect_loop (searchByPage search tags limit sfw)
              (pageRange start pages)).queried).map toString,
            (collect_loop (searchByPage search tags limit sfw)
              (pageRange start pages)).reported⟩ := by
  unfold collect_posts
  rw [if_neg hpages, hparse]

/-- When the `u32` sum `starting_page + pages` does not wrap, the loop covers
exactly `pages` pages from `starting_page`. -/
lemma pageRange_eq_of_nowrap (start pages : Nat) (h : start + pages < 2 ^ 32) :
    pageRange start pages = List.range' start pages := by
  unfold pageRange
  rw [Nat.mod_eq_of_lt h, Nat.add_sub_cancel_left]

/-- Unfolding of `collect_posts` on the multi-page path when the loop-bound
addition does not overflow. -/
lemma collect_posts_multi_nowrap
    (search : String → Nat → String → Bool → Except String (List Post))
    (tags : String) (limit : Nat) (page : String) (pages : Nat) (sfw : Bool)
    (start : Nat) (hpages : pages ≠ 1) (hparse : parse_u32 page = some start)
    (hnowrap : start + pages < 2 ^ 32) :
    collect_posts search tags limit page pages sfw =
      some ⟨.ok (collect_loop (searchByPage search tags limit sfw)
              (List.range' start pages)).posts,
            ((collect_loop (searchByPage search tags limit sfw)
              (List.range' start pages)).queried).map toString,
            (collect_loop (searchByPage search tags limit sfw)
              (List.range' start pages)).reported⟩ := by
  rw [collect_posts_multi search tags limit page pages sfw start hpages hparse,
    pageRange_eq_of_nowrap start pages hnowrap]

/-- When page `k` is the first page of the interval answered with an empty
result, the loop's kept prefix is exactly the pages before `k`. -/
lemma takeWhile_first_end (searchN : Nat → Except String (List Post))
    (start pages k : Nat) (hk1 : start ≤ k) (hk2 : k < start + pages)
    (hkend : searchN k = .ok [])
    (hbefore : ∀ p, start ≤ p → p < k → searchN p ≠ .ok []) :
    (List.range' start pages).takeWhile (fun p => !isEnd searchN p) =
      List.range' start (k - start) := by
  obtain ⟨m, hm, ht, hall, hend⟩ :=
    takeWhile_range'_spec (fun p => !isEnd searchN p) start pages
  have hsm : start + m = k := by
    rcases Nat.lt_trichotomy (start + m) k with h | h | h
    · exfalso
      have hmlt : m < pages := by omega
      have h1 := hend hmlt
      have hE : isEnd searchN (start + m) = true := by
        cases hE2 : isEnd searchN (start + m)
        · rw [hE2] at h1; simp at h1
        · rfl
      rw [isEnd_iff] at hE
      exact hbefore (start + m) (by omega) h hE
    · exact h
    · exfalso
      have h1 := hall k hk1 (by omega)
      have hE : isEnd searchN k = true := (isEnd_iff searchN k).mpr hkend
      rw [hE] at h1
      simp at h1
  rw [ht]
  congr 1
  omega

/-- Under the same first-empty-page hypotheses, the whole loop outcome. -/
lemma collect_loop_first_end (searchN : Nat → Except String (List Post))
    (start pages k : Nat) (hk1 : start ≤ k) (hk2 : k < start + pages)
    (hkend : searchN k = .ok [])
    (hbefore : ∀ p, start ≤ p → p < k → searchN p ≠ .ok []) :
    collect_loop searchN (List.range' start pages) =
      ⟨(List.range' start (k - start)).flatMap (okItems searchN),
       List.range' start (k - start + 1),
       (List.range' start (k - start)).filterMap (errOf searchN)⟩ := by
  rw [collect_loop_eq]
  have ht := takeWhile_first_end searchN start pages k hk1 hk2 hkend hbefore
  have hmle : k - start ≤ pages := by omega
  have hd := dropWhile_range'_of_takeWhile (fun p => !isEnd searchN p)
    start pages (k - start) hmle ht
  rw [ht, hd]
  have hq : List.range' start (k - start) ++
      (List.range' (start + (k - start)) (pages - (k - start))).take 1 =
      List.range' start (k - start + 1) := by
    rw [show start + (k - start) = k by omega,
      show pages - (k - start) = (pages - (k - start) - 1) + 1 by omega,
      List.range'_succ k _ 1]
    rw [show (k :: List.range' (k + 1) (pages - (k - start) - 1)).take 1 = [k] by
      simp [List.take]]
    rw [show ([k] : List Nat) = List.range' k 1 from rfl]
    have happ := range'_append_one start (k - start) 1
    rw [show start + (k - start) = k by omega] at happ
    exact happ
  rw [hq]

/-- A rule that matches a post always produces a label: the `unwrap` calls in
`post_group` cannot panic under the corresponding `matches_post` guard. -/
lemma post_group_isSome_of_matches (g : PostGrouping) (post : Post)
    (h : PostGrouping.matches_post g post = true) :
    (PostGrouping.post_group? g post).isSome = true := by
  cases g with
  | Pool =>
    cases hp : post.pools with
    | nil => simp [PostGrouping.matches_post, hp] at h
    | cons a t => simp [PostGrouping.post_group?, hp]
  | Rating => rfl
  | Artist =>
    cases hp : post.tags.artist with
    | nil => simp [PostGrouping.matches_post, hp] at h
    | cons a t => simp [PostGrouping.post_group?, hp]
  | FileType => rfl
  | Tag tag => rfl

lemma api_download_no_url (fs : FsO) (net : Net) (post : Post)
    (dest : List String) (h : post.file.url = none) :
    api_download fs net post dest =
      (.error "post has no downloadable file (a tag might be blacklisted)", []) := by
  unfold api_download
  rw [h]

/-- Unfolding of `download` when no grouping rule matches. -/
lemma download_eq_no_match (fs : FsO) (net : Net) (post : Post)
    (dest : List String) (grouping : List PostGrouping)
    (hf : grouping.find? (fun g => PostGrouping.matches_post g post) = none) :
    download fs net post dest grouping =
      some ⟨post.id, none, dest ++ [toString post.id ++ "." ++ post.file.ext],
        (api_download fs net post
          (dest ++ [toString post.id ++ "." ++ post.file.ext])).1,
        (api_download fs net post
          (dest ++ [toString post.id ++ "." ++ post.file.ext])).2⟩ := by
  unfold download
  rw [hf]

/-- Unfolding of `download` when a grouping rule matches and labels. -/
lemma download_eq_match (fs : FsO) (net : Net) (post : Post)
    (dest : List String) (grouping : List PostGrouping) (g : PostGrouping)
    (label : String)
    (hf : grouping.find? (fun x => PostGrouping.matches_post x post) = some g)
    (hl : PostGrouping.post_group? g post = some label) :
    download fs net post dest grouping =
      some ⟨post.id,
        (match fs.createDirAll (dest ++ [label]) with
          | .ok _ => none
          | .error e => some e),
        dest ++ [label] ++ [toString post.id ++ "." ++ post.file.ext],
        (api_download fs net post
          (dest ++ [label] ++ [toString post.id ++ "." ++ post.file.ext])).1,
        .createDir (dest ++ [label]) ::
          (api_download fs net post
            (dest ++ [label] ++ [toString post.id ++ "." ++ post.file.ext])).2⟩ := by
  unfold download
  simp only [hf, hl]

/-- An item worker never panics: the only `unwrap` is guarded by
`matches_post`. -/
lemma download_isSome (fs : FsO) (net : Net) (post : Post) (dest : List String)
    (grouping : List PostGrouping) :
    (download fs net post dest grouping).isSome = true := by
  cases hf : grouping.find? (fun g => PostGrouping.matches_post g post) with
  | none => rw [download_eq_no_match fs net post dest grouping hf]; rfl
  | some g =>
    have hm := List.find?_some hf
    have hs := post_group_isSome_of_matches g post hm
    cases hl : PostGrouping.post_group? g post with
    | none => rw [hl] at hs; simp at hs
    | some label =>
      rw [download_eq_match fs net post dest grouping g label hf hl]
      rfl

lemma forEachItem_forall2 {α β : Type} (f : α → Option β) (l : List α)
    (h : ∀ a ∈ l, (f a).isSome = true) :
    ∃ rs, forEachItem f l = some rs ∧
      List.Forall₂ (fun a b => f a = some b) l rs := by
  induction l with
  | nil => exact ⟨[], rfl, List.Forall₂.nil⟩
  | cons a t ih =>
    obtain ⟨rs, hrs, hf2⟩ := ih (fun x hx => h x (List.mem_cons_of_mem a hx))
    have ha := h a (List.mem_cons_self a t)
    cases hfa : f a with
    | none => rw [hfa] at ha; simp at ha
    | some b =>
      refine ⟨b :: rs, ?_, List.Forall₂.cons hfa hf2⟩
      simp [forEachItem, hfa, hrs]

/-- When the output root can be created, the batch runs every item and
returns `Ok`. -/
lemma download_all_ok (fs : FsO) (net : Net) (posts : List Post)
    (dest : List String) (grouping : List PostGrouping)
    (hroot : fs.createDirAll dest = .ok ()) :
    ∃ rs, download_all fs net posts dest grouping =
        some (.ok (), rs, .createDir dest :: rs.flatMap (fun r => r.events)) ∧
      List.Forall₂ (fun p r => download fs net p dest grouping = some r)
        posts rs := by
  obtain ⟨rs, hrs, hf2⟩ := forEachItem_forall2
    (fun post => download fs net post dest grouping) posts
    (fun p _ => download_isSome fs net p dest grouping)
  refine ⟨rs, ?_, hf2⟩
  unfold download_all
  rw [hroot, hrs]
  rfl

lemma forall2_mem_left {α β : Type} {R : α → β → Prop} {l : List α}
    {l' : List β} (h : List.Forall₂ R l l') {a : α} (ha : a ∈ l) :
    ∃ b, b ∈ l' ∧ R a b := by
  induction h with
  | nil => simp at ha
  | @cons x y t t' hR _ ih =>
    rcases List.mem_cons.1 ha with rfl | ha'
    · exact ⟨y, List.mem_cons_self y t', hR⟩
    · obtain ⟨b, hb, hRb⟩ := ih ha'
      exact ⟨b, List.mem_cons_of_mem y hb, hRb⟩

/-- A post with an absent URL always yields the specific "no downloadable
file" failure, whatever the grouping and environment. -/
lemma download_no_url_result (fs : FsO) (net : Net) (post : Post)
    (dest : List String) (grouping : List PostGrouping) (r : ItemResult)
    (hurl : post.file.url = none)
    (hr : download fs net post dest grouping = some r) :
    r.postId = post.id ∧
      r.result = .error "post has no downloadable file (a tag might be blacklisted)" := by
  cases hf : grouping.find? (fun g => PostGrouping.matches_post g post) with
  | none =>
    rw [download_eq_no_match fs net post dest grouping hf] at hr
    injection hr with hr
    subst hr
    refine ⟨rfl, ?_⟩
    show (api_download fs net post _).1 = _
    rw [api_download_no_url fs net post _ hurl]
  | some g =>
    cases hl : PostGrouping.post_group? g post with
    | none =>
      unfold download at hr
      simp only [hf, hl] at hr
      exact Option.noConfusion hr
    | some label =>
      rw [download_eq_match fs net post dest grouping g label hf hl] at hr
      injection hr with hr
      subst hr
      refine ⟨rfl, ?_⟩
      show (api_download fs net post _).1 = _
      rw [api_download_no_url fs net post _ hurl]

/-- Per-page failure is isolated inside the multi-page loop: the failure is
reported, the loop still visits the next page of the interval, and any
successfully queried page's items appear contiguously in the accumulator. -/
lemma collect_loop_failure_isolated (searchN : Nat → Except String (List Post))
    (start pages p q : Nat) (e : String) (l : List Post)
    (hfail : searchN p = .error e)
    (hp : p ∈ (collect_loop searchN (List.range' start pages)).queried)
    (hq : q ∈ (collect_loop searchN (List.range' start pages)).queried)
    (hqok : searchN q = .ok l) (hl : l ≠ []) :
    (p, e) ∈ (collect_loop searchN (List.range' start pages)).reported ∧
    (p + 1 < start + pages →
      (p + 1) ∈ (collect_loop searchN (List.range' start pages)).queried) ∧
    ∃ A B, (collect_loop searchN (List.range' start pages)).posts = A ++ l ++ B := by
  rw [collect_loop_eq] at hp hq ⊢
  simp only at hp hq ⊢
  obtain ⟨m, hm, ht, hall, hend⟩ :=
    takeWhile_range'_spec (fun x => !isEnd searchN x) start pages
  have hd := dropWhile_range'_of_takeWhile (fun x => !isEnd searchN x)
    start pages m hm ht
  have hpre : p ∈ (List.range' start pages).takeWhile (fun x => !isEnd searchN x) := by
    rcases List.mem_append.1 hp with h1 | h2
    · exact h1
    · exfalso
      have hPp : (!isEnd searchN p) = false := mem_take_one_dropWhile
        (fun x => !isEnd searchN x) (List.range' start pages) p h2
      have : isEnd searchN p = true := by
        cases hI : isEnd searchN p
        · rw [hI] at hPp; simp at hPp
        · rfl
      rw [isEnd_iff, hfail] at this
      exact Except.noConfusion this
  have hqre : q ∈ (List.range' start pages).takeWhile (fun x => !isEnd searchN x) := by
    rcases List.mem_append.1 hq with h1 | h2
    · exact h1
    · exfalso
      have hPq : (!isEnd searchN q) = false := mem_take_one_dropWhile
        (fun x => !isEnd searchN x) (List.range' start pages) q h2
      have : isEnd searchN q = true := by
        cases hI : isEnd searchN q
        · rw [hI] at hPq; simp at hPq
        · rfl
      rw [isEnd_iff, hqok] at this
      have : l = [] := by injection this
      exact hl this
  refine ⟨?_, ?_, ?_⟩
  · exact List.mem_filterMap.2 ⟨p, hpre, by simp [errOf, hfail]⟩
  · intro hnext
    rw [ht] at hpre
    have hpb := List.mem_range'_1.1 hpre
    by_cases hcase : p + 1 < start + m
    · refine List.mem_append_left _ ?_
      rw [ht]
      exact List.mem_range'_1.2 ⟨by omega, hcase⟩
    · have hpm : p + 1 = start + m := by omega
      have hmlt : m < pages := by omega
      refine List.mem_append_right _ ?_
      rw [hd, show pages - m = (pages - m - 1) + 1 by omega,
        List.range'_succ (start + m) (pages - m - 1) 1]
      rw [show ((start + m) :: List.range' (start + m + 1) (pages - m - 1)).take 1
          = [start + m] by simp [List.take]]
      rw [hpm]
      exact List.mem_singleton.2 rfl
  · obtain ⟨A, B, hAB⟩ := flatMap_mem_decomp (okItems searchN)
      ((List.range' start pages).takeWhile (fun x => !isEnd searchN x)) q hqre
    refine ⟨A, B, ?_⟩
    rw [hAB]
    have : okItems searchN q = l := by simp [okItems, hqok]
    rw [this]

/-! ## Claim theorems -/

/-- Claim C1, counterexample to the claim as stated: with rules
`[by-collection, by-rating]` and an item in collection 42 with rating safe,
the classifier's label is `"pool_42"` — the code prefixes the first pool id
with `"pool_"`, not with `"collection_"` as the claim says. -/
theorem c1_counterexample :
    classify [PostGrouping.Pool, PostGrouping.Rating] exPost = some "pool_42" ∧
    classify [PostGrouping.Pool, PostGrouping.Rating] exPost ≠ some "collection_42" := by
  exact ⟨by decide, by decide⟩

/-- Claim C1 as amended: for every item whose collection list is non-empty,
when the first matching rule is by-collection the classifier's label is the
string `"pool_"` followed by the item's first collection id; in particular,
with rules `[by-collection, by-rating]` and an item with `collections = [42]`
and `rating = safe`, classification yields the subpath segment `"pool_42"`. -/
theorem c1_pool_label (grouping : List PostGrouping) (post : Post)
    (hf : grouping.find? (fun g => PostGrouping.matches_post g post) =
      some PostGrouping.Pool) :
    ∃ c cs, post.pools = c :: cs ∧
      classify grouping post = some ("pool_" ++ toString c) := by
  have hm := List.find?_some hf
  cases hp : post.pools with
  | nil => simp [PostGrouping.matches_post, hp] at hm
  | cons c cs =>
    refine ⟨c, cs, rfl, ?_⟩
    unfold classify
    rw [hf]
    simp [PostGrouping.post_group?, hp]

/-- Witness for C1's amended theorem at the claim's concrete input. -/
theorem c1_pool_label_witness :
    ([PostGrouping.Pool, PostGrouping.Rating].find?
        (fun g => PostGrouping.matches_post g exPost) = some PostGrouping.Pool) ∧
    ∃ c cs, exPost.pools = c :: cs ∧
      classify [PostGrouping.Pool, PostGrouping.Rating] exPost =
        some ("pool_" ++ toString c) :=
  ⟨by decide,
   c1_pool_label [PostGrouping.Pool, PostGrouping.Rating] exPost (by decide)⟩

/-- Claim C2, counterexample to the claim as stated: in an environment where
creating the grouped subdirectory fails, `download` reports the failure but
does NOT abandon the item — the remote fetch is still attempted (the
`fetchGet` event is in the trace). -/
theorem c2_counterexample :
    (download exFsDirFail exNet exPost ["out"] [PostGrouping.Pool]).map
        (fun r => (r.dirError,
          r.events.contains (Ev.fetchGet "https://static1.e621.net/a.png"))) =
      some (some "permission denied", true) := by
  decide

/-- Claim C2 as amended: when the subdirectory for a matched grouping label
cannot be created, the failure is reported (in `dirError`), but the item is
not abandoned: `api::download` is still attempted at the path containing the
failed subdirectory, and only its events follow the directory attempt. (That
the rest of the pool continues is the content of `download_all`, which maps
every post regardless of individual outcomes.) -/
theorem c2_dir_failure_not_abandoned (fs : FsO) (net : Net) (post : Post)
    (dest : List String) (grouping : List PostGrouping) (g : PostGrouping)
    (label e : String)
    (hf : grouping.find? (fun x => PostGrouping.matches_post x post) = some g)
    (hl : PostGrouping.post_group? g post = some label)
    (hdir : fs.createDirAll (dest ++ [label]) = .error e) :
    download fs net post dest grouping =
      some ⟨post.id, some e,
        dest ++ [label] ++ [toString post.id ++ "." ++ post.file.ext],
        (api_download fs net post
          (dest ++ [label] ++ [toString post.id ++ "." ++ post.file.ext])).1,
        .createDir (dest ++ [label]) ::
          (api_download fs net post
            (dest ++ [label] ++ [toString post.id ++ "." ++ post.file.ext])).2⟩ := by
  rw [download_eq_match fs net post dest grouping g label hf hl, hdir]

/-- Witness for C2's amended theorem in the failing-directory environment. -/
theorem c2_dir_failure_witness :
    (exFsDirFail.createDirAll (["out"] ++ ["pool_42"]) =
      .error "permission denied") ∧
    download exFsDirFail exNet exPost ["out"] [PostGrouping.Pool] =
      some ⟨exPost.id, some "permission denied",
        ["out"] ++ ["pool_42"] ++ [toString exPost.id ++ "." ++ exPost.file.ext],
        (api_download exFsDirFail exNet exPost
          (["out"] ++ ["pool_42"] ++
            [toString exPost.id ++ "." ++ exPost.file.ext])).1,
        .createDir (["out"] ++ ["pool_42"]) ::
          (api_download exFsDirFail exNet exPost
            (["out"] ++ ["pool_42"] ++
              [toString exPost.id ++ "." ++ exPost.file.ext])).2⟩ :=
  ⟨by rfl,
   c2_dir_failure_not_abandoned exFsDirFail exNet exPost ["out"]
     [PostGrouping.Pool] PostGrouping.Pool "pool_42" "permission denied"
     (by rfl) (by rfl) (by rfl)⟩

/-- Claim C6: for every rule and every item such that the rule's match
predicate holds, the rule's label computation is defined — the `unwrap`
calls of `post_group` on the first pool and the first artist tag always
succeed under `matches_post`. -/
theorem c6_match_implies_label (g : PostGrouping) (post : Post)
    (h : PostGrouping.matches_post g post = true) :
    (PostGrouping.post_group? g post).isSome = true :=
  post_group_isSome_of_matches g post h

/-- Witness for C6 at the pool rule and the example post. -/
theorem c6_match_implies_label_witness :
    (PostGrouping.matches_post PostGrouping.Pool exPost = true) ∧
    (PostGrouping.post_group? PostGrouping.Pool exPost).isSome = true :=
  ⟨by decide, c6_match_implies_label PostGrouping.Pool exPost (by decide)⟩

/-- Claim C7: if the rule list is empty or no rule matches, classification
yields no subpath and the final destination path is exactly
`outputRoot/<id>.<extension>`. -/
theorem c7_no_match_direct_path (fs : FsO) (net : Net) (post : Post)
    (dest : List String) (grouping : List PostGrouping)
    (h : ∀ g ∈ grouping, PostGrouping.matches_post g post = false) :
    classify grouping post = none ∧
    ∃ r, download fs net post dest grouping = some r ∧
      r.path = dest ++ [toString post.id ++ "." ++ post.file.ext] := by
  have hf : grouping.find? (fun g => PostGrouping.matches_post g post) = none := by
    rw [List.find?_eq_none]
    intro x hx
    simp [h x hx]
  constructor
  · unfold classify
    rw [hf]
    rfl
  · rw [download_eq_no_match fs net post dest grouping hf]
    exact ⟨_, rfl, rfl⟩

/-- Witness for C7: a post matching no rule lands directly under the root. -/
theorem c7_no_match_direct_path_witness :
    (∀ g ∈ [PostGrouping.Pool], PostGrouping.matches_post g exPostPlain = false) ∧
    (classify [PostGrouping.Pool] exPostPlain = none ∧
      ∃ r, download exFsOk exNet exPostPlain ["out"] [PostGrouping.Pool] = some r ∧
        r.path = ["out"] ++ [toString exPostPlain.id ++ "." ++ exPostPlain.file.ext]) :=
  ⟨by decide,
   c7_no_match_direct_path exFsOk exNet exPostPlain ["out"] [PostGrouping.Pool]
     (by decide)⟩

/-- Claim C3, counterexample to the claim as stated: with `--page 1
--pages 4294967295` the pre-flight check passes and every hypothesis of the
claim holds (pages exceed 1, the start page is numeric, page 2 is the first
empty page of the mathematical interval `[1, 1 + 4294967295 - 1]`), yet the
`u32` loop bound `1 + 4294967295` wraps to `0` (src/main.rs line 155), the
loop `1..0` is empty, and `collect_posts` queries no page at all instead of
the pages `1 .. 2` the claim demands. -/
theorem c3_counterexample :
    (1 : Nat) < 4294967295 ∧ parse_u32 "1" = some 1 ∧
    (1 : Nat) ≤ 2 ∧ (2 : Nat) < 1 + 4294967295 ∧
    searchByPage exSearch "t" 10 false 2 = .ok [] ∧
    (∀ p, 1 ≤ p → p < 2 → searchByPage exSearch "t" 10 false p ≠ .ok []) ∧
    ∃ out, collect_posts exSearch "t" 10 "1" 4294967295 false = some out ∧
      out.queried = [] ∧
      out.queried ≠ (List.range' 1 (2 - 1 + 1)).map toString := by
  refine ⟨by omega, by decide, by omega, by omega, rfl, ?_, ?_⟩
  · intro p h1 h2
    have hp : p = 1 := by omega
    subst hp
    intro hcontra
    have h0 : searchByPage exSearch "t" 10 false 1 = .ok [exPost] := rfl
    rw [h0] at hcontra
    injection hcontra with h3
    exact List.noConfusion h3
  · exact ⟨_, rfl, rfl, by decide⟩

/-- Claim C3 as amended: in a multi-page collection whose `u32` loop-bound
addition `startPage + pageCount` does not overflow, if page `k` is the first
page of `[startPage, startPage + pageCount - 1]` answered with an empty
result, then `collect_posts` queries exactly the pages `startPage .. k` in
increasing order and returns the concatenation, in page order, of the items
of the pages `[startPage, k)` (a failed page among them contributes no
items). -/
theorem c3_stops_at_first_empty_page
    (search : String → Nat → String → Bool → Except String (List Post))
    (tags : String) (limit : Nat) (page : String) (pages : Nat) (sfw : Bool)
    (start k : Nat) (hpages : 1 < pages) (hparse : parse_u32 page = some start)
    (hnowrap : start + pages < 2 ^ 32)
    (hk1 : start ≤ k) (hk2 : k < start + pages)
    (hkend : searchByPage search tags limit sfw k = .ok [])
    (hbefore : ∀ p, start ≤ p → p < k →
      searchByPage search tags limit sfw p ≠ .ok []) :
    ∃ out, collect_posts search tags limit page pages sfw = some out ∧
      out.queried = (List.range' start (k - start + 1)).map toString ∧
      out.result = .ok ((List.range' start (k - start)).flatMap
        (okItems (searchByPage search tags limit sfw))) := by
  rw [collect_posts_multi_nowrap search tags limit page pages sfw start
      (by omega) hparse hnowrap,
    collect_loop_first_end (searchByPage search tags limit sfw) start pages k
      hk1 hk2 hkend hbefore]
  exact ⟨_, rfl, rfl, rfl⟩

/-- Witness for C3's amended theorem: pages start at 1, page 2 is the first
empty page, so only pages 1 and 2 are queried and only page 1's item is
returned. -/
theorem c3_stops_witness :
    (searchByPage exSearch "t" 10 false 2 = .ok []) ∧
    ((1 : Nat) + 3 < 2 ^ 32) ∧
    ∃ out, collect_posts exSearch "t" 10 "1" 3 false = some out ∧
      out.queried = (List.range' 1 (2 - 1 + 1)).map toString ∧
      out.result = .ok ((List.range' 1 (2 - 1)).flatMap
        (okItems (searchByPage exSearch "t" 10 false))) := by
  refine ⟨rfl, by omega, ?_⟩
  refine c3_stops_at_first_empty_page exSearch "t" 10 "1" 3 false 1 2
    (by omega) (by decide) (by omega) (by omega) (by omega) rfl ?_
  intro p h1 h2
  have hp : p = 1 := by omega
  subst hp
  intro hcontra
  have h0 : searchByPage exSearch "t" 10 false 1 = .ok [exPost] := rfl
  rw [h0] at hcontra
  injection hcontra with h3
  exact List.noConfusion h3

/-- Claim C4: a failed page inside a multi-page collection is reported,
iteration continues with the next page number (whenever that page lies in
the loop's actual `u32`-wrapping range `pageRange`), and the items of any
later page that was queried and answered non-empty appear in the returned
concatenation ("a later page succeeds" is formalized as: the later page is
among the queried pages and its query returns a non-empty success). -/
theorem c4_page_failure_does_not_halt
    (search : String → Nat → String → Bool → Except String (List Post))
    (tags : String) (limit : Nat) (page : String) (pages : Nat) (sfw : Bool)
    (start p q : Nat) (e : String) (l : List Post)
    (hpages : 1 < pages) (hparse : parse_u32 page = some start)
    (hfail : searchByPage search tags limit sfw p = .error e)
    (hp : p ∈ (collect_loop (searchByPage search tags limit sfw)
      (pageRange start pages)).queried)
    (_hpq : p < q)
    (hq : q ∈ (collect_loop (searchByPage search tags limit sfw)
      (pageRange start pages)).queried)
    (hqok : searchByPage search tags limit sfw q = .ok l) (hl : l ≠ []) :
    ∃ out posts, collect_posts search tags limit page pages sfw = some out ∧
      out.result = .ok posts ∧
      (p, e) ∈ out.reported ∧
      (p + 1 ∈ pageRange start pages → toString (p + 1) ∈ out.queried) ∧
      ∃ A B, posts = A ++ l ++ B := by
  obtain ⟨h1, h2, h3⟩ := collect_loop_failure_isolated
    (searchByPage search tags limit sfw) start
    ((start + pages) % 2 ^ 32 - start) p q e l hfail hp hq hqok hl
  rw [collect_posts_multi search tags limit page pages sfw start (by omega) hparse]
  refine ⟨_, _, rfl, rfl, h1, ?_, h3⟩
  intro hn
  have hn' : p + 1 < start + ((start + pages) % 2 ^ 32 - start) :=
    (List.mem_range'_1.1 hn).2
  exact List.mem_map_of_mem toString (h2 hn')

/-- Witness for C4: page 1 fails, pages 2 and 3 are still queried and page
2's item is returned. -/
theorem c4_page_failure_witness :
    (searchByPage exSearchFail "t" 10 false 1 = .error "boom") ∧
    ∃ out posts, collect_posts exSearchFail "t" 10 "1" 3 false = some out ∧
      out.result = .ok posts ∧
      (1, "boom") ∈ out.reported ∧
      (1 + 1 ∈ pageRange 1 3 → toString (1 + 1) ∈ out.queried) ∧
      ∃ A B, posts = A ++ [exPost] ++ B := by
  have hfail : searchByPage exSearchFail "t" 10 false 1 = .error "boom" := rfl
  have hquer : (collect_loop (searchByPage exSearchFail "t" 10 false)
      (pageRange 1 3)).queried = [1, 2, 3] := rfl
  refine ⟨hfail, ?_⟩
  exact c4_page_failure_does_not_halt exSearchFail "t" 10 "1" 3 false 1 1 2
    "boom" [exPost] (by omega) (by decide) hfail (by rw [hquer]; decide)
    (by omega) (by rw [hquer]; decide) rfl (by simp)

/-- Claim C9: a multi-page collection (with the numeric start page that
`main` has already validated) always returns a success value, whatever the
per-page outcomes — even when every page query fails. -/
theorem c9_multi_page_never_error
    (search : String → Nat → String → Bool → Except String (List Post))
    (tags : String) (limit : Nat) (page : String) (pages : Nat) (sfw : Bool)
    (start : Nat) (hpages : 1 < pages) (hparse : parse_u32 page = some start) :
    ∃ out posts, collect_posts search tags limit page pages sfw = some out ∧
      out.result = .ok posts := by
  rw [collect_posts_multi search tags limit page pages sfw start (by omega) hparse]
  exact ⟨_, _, rfl, rfl⟩

/-- Witness for C9 on a service where every query fails. -/
theorem c9_multi_page_witness :
    (parse_u32 "1" = some 1) ∧
    ∃ out posts, collect_posts exSearchAllFail "t" 10 "1" 2 false = some out ∧
      out.result = .ok posts :=
  ⟨by decide,
   c9_multi_page_never_error exSearchAllFail "t" 10 "1" 2 false 1
     (by omega) (by decide)⟩

/-- Claim C5: an item with an absent remote URL yields the specific
recoverable "no downloadable file" error, reported for that item's own
outcome; the batch still runs every item (one outcome per input item, in
order) and completes with `Ok`. -/
theorem c5_absent_url_recoverable (fs : FsO) (net : Net) (posts : List Post)
    (dest : List String) (grouping : List PostGrouping) (post : Post)
    (hmem : post ∈ posts) (hurl : post.file.url = none)
    (hroot : fs.createDirAll dest = .ok ()) :
    ∃ rs, download_all fs net posts dest grouping =
        some (.ok (), rs, .createDir dest :: rs.flatMap (fun r => r.events)) ∧
      List.Forall₂ (fun p r => download fs net p dest grouping = some r) posts rs ∧
      ∃ r, r ∈ rs ∧ r.postId = post.id ∧
        r.result = .error "post has no downloadable file (a tag might be blacklisted)" := by
  obtain ⟨rs, hall, hf2⟩ := download_all_ok fs net posts dest grouping hroot
  refine ⟨rs, hall, hf2, ?_⟩
  obtain ⟨r, hrmem, hr⟩ := forall2_mem_left hf2 hmem
  obtain ⟨h1, h2⟩ := download_no_url_result fs net post dest grouping r hurl hr
  exact ⟨r, hrmem, h1, h2⟩

/-- Witness for C5 on a two-item batch whose second item has no URL. -/
theorem c5_absent_url_witness :
    (exPostNoUrl.file.url = none) ∧
    ∃ rs, download_all exFsOk exNet [exPost, exPostNoUrl] ["out"] [] =
        some (.ok (), rs, .createDir ["out"] :: rs.flatMap (fun r => r.events)) ∧
      List.Forall₂ (fun p r => download exFsOk exNet p ["out"] [] = some r)
        [exPost, exPostNoUrl] rs ∧
      ∃ r, r ∈ rs ∧ r.postId = exPostNoUrl.id ∧
        r.result = .error "post has no downloadable file (a tag might be blacklisted)" :=
  ⟨rfl,
   c5_absent_url_recoverable exFsOk exNet [exPost, exPostNoUrl] ["out"] []
     exPostNoUrl
     (List.mem_cons_of_mem exPost (List.mem_cons_self exPostNoUrl []))
     rfl rfl⟩

/-- Claim C8: for an item with a present URL, the local destination file is
created (truncated) as the very first effect of the per-item download —
before any fetch — so whenever the download ends in a fetch or stream error,
the creation attempt is already in the trace and a possibly empty or partial
file remains at the target path. -/
theorem c8_file_created_before_fetch (fs : FsO) (net : Net) (post : Post)
    (dest : List String) (u : String) (h : post.file.url = some u) :
    ((api_download fs net post dest).2).head? = some (Ev.createFile dest) ∧
    (∀ e, (api_download fs net post dest).1 = .error e →
      Ev.createFile dest ∈ (api_download fs net post dest).2) := by
  unfold api_download
  rw [h]
  cases hc : fs.createFile dest with
  | error e₀ =>
    simp only [hc]
    exact ⟨rfl, fun e _ => List.mem_singleton.2 rfl⟩
  | ok u₀ =>
    simp only [hc]
    cases hg : net.get u with
    | error e₁ =>
      simp only [hg]
      exact ⟨rfl, fun e _ => List.mem_cons_self _ _⟩
    | ok chunks =>
      simp only [hg]
      exact ⟨rfl, fun e _ => List.mem_cons_self _ _⟩

/-- Witness for C8: a failing fetch still leaves the created file event first
in the trace. -/
theorem c8_file_created_witness :
    (exPost.file.url = some "https://static1.e621.net/a.png") ∧
    (((api_download exFsOk exNetFail exPost ["out", "100.png"]).2).head? =
        some (Ev.createFile ["out", "100.png"]) ∧
      (∀ e, (api_download exFsOk exNetFail exPost ["out", "100.png"]).1 =
          .error e →
        Ev.createFile ["out", "100.png"] ∈
          (api_download exFsOk exNetFail exPost ["out", "100.png"]).2)) :=
  ⟨rfl,
   c8_file_created_before_fetch exFsOk exNetFail exPost ["out", "100.png"]
     "https://static1.e621.net/a.png" rfl⟩

/-- Claim C10: when collection succeeds with an empty item list, the phase of
`main` after collection performs nothing at all: no event (in particular the
output root is never created), no item outcome (no classification, no
download), and the process result is `Ok`. -/
theorem c10_empty_collection_no_effects (fs : FsO) (net : Net)
    (out : List String) (grouping : List PostGrouping) :
    main_after_collect fs net out grouping (.ok []) = some (.ok (), [], []) :=
  rfl

end E6dl
